import Mathlib

/-!
# SyncTV room registry: a shallow embedding of `internal/op/room.go` and `internal/op/rooms.go`

The Go code is stateful: `*Room` values are heap objects shared by pointer, and the
package variable `roomCache` maps room ids to cache entries.  The embedding passes
that state explicitly as a `World`:

* `heap`      the `Room` object stored at every address (`Ptr`);
* `roomCache` the entries of the package level `roomCache`;
* `closeLog`  a ghost trace of the receivers of `Room.close`, in call order;
* `dbLog`     a ghost trace of the calls made to the `db` package.

Collaborators that are not part of the two files (bcrypt, the `db` package,
`model.Room.CheckPassword`, `GetUserName`, the configured TTL) are inputs, gathered in `Env`.
Clock readings (`time.Now()`) are passed as an explicit `now`.
-/

set_option autoImplicit false

namespace SyncTV

/-! ## Errors and the embedded database row -/

/-- Errors returned by the operations of package `op`. -/
inductive Error where
  /-- The value `errors.New("password is the same")` of `Room.SetPassword`. -/
  | passwordSame
  /-- The value `errors.New("room already init")` of `InitRoom`. -/
  | roomAlreadyInit
  /-- The sentinel `ErrRoomPending`. -/
  | roomPending
  /-- The sentinel `ErrRoomStopped`. -/
  | roomStopped
  /-- The sentinel `ErrRoomBanned`. -/
  | roomBanned
  /-- The value `errors.New("room not found")` of `LoadRoomByID`. -/
  | roomNotFound
  /-- An error surfaced verbatim from a collaborator (bcrypt, db). -/
  | external (msg : String)
  deriving DecidableEq, Repr

/-- Modelled from the spec: `model.RoomStatus`, whose declaration is not among the sources;
the data model gives `Status ∈ {Active, Pending, Stopped, Banned}`. -/
inductive RoomStatus where
  | Banned
  | Pending
  | Stopped
  | Active
  deriving DecidableEq, Repr

/-- Modelled from the spec: the fields of the database row `model.Room` that package `op`
reads (`ID`, `Name`, `CreatorID`, `CreatedAt`, `HashedPassword`, `Status`, `Settings.Hidden`).
`HashedPassword` is a byte slice (bytes as naturals below 256, the nil slice as `[]`);
`CreatedAt` is kept as its `UnixMilli()` reading. -/
structure ModelRoom where
  ID : String
  Name : String
  CreatorID : String
  CreatedAt : Int
  HashedPassword : List Nat
  Status : RoomStatus
  Hidden : Bool
  deriving DecidableEq, Repr

/-! ## `hash/crc32` -/

/-- One shift step of the reflected CRC-32 with the IEEE polynomial `0xedb88320`. -/
def crc32Bit (c : Nat) : Nat :=
  if c % 2 = 1 then (c / 2) ^^^ 0xedb88320 else c / 2

/-- Feed one byte into the running CRC-32 register. -/
def crc32Byte (c b : Nat) : Nat :=
  crc32Bit (crc32Bit (crc32Bit (crc32Bit (crc32Bit (crc32Bit (crc32Bit (crc32Bit
    (c ^^^ (b % 256)))))))))

/-- Go's `crc32.ChecksumIEEE`: register preset to all ones, complemented at the end. -/
def ChecksumIEEE (data : List Nat) : Nat :=
  (data.foldl crc32Byte 0xffffffff) ^^^ 0xffffffff

/-! ## Hub and movies (collaborators owned by a room) -/

/-- Modelled from the spec: the broadcast `Hub` (its file is not among the sources), reduced to
the shutdown flag and the distinct registered users. -/
structure Hub where
  closed : Bool
  users : List String
  deriving DecidableEq, Repr

/-- Modelled from the spec: `newHub(roomID)` yields an open hub without clients. -/
def newHub (_roomID : String) : Hub :=
  { closed := false, users := [] }

/-- Modelled from the spec: `Hub.ClientNum` is the number of distinct users registered. -/
def Hub.ClientNum (h : Hub) : Int :=
  (h.users.length : Int)

/-- Modelled from the spec: `Hub.Close` marks the hub closed and closes all clients; a second
call is a no-op. -/
def Hub.Close (h : Hub) : Hub :=
  if h.closed then h else { closed := true, users := [] }

/-- Modelled from the spec: the per-room `movies` collection (its file is not among the
sources), reduced to the room id, the movie ids holding an open media channel, and a flag
recording that `Close` ran. -/
structure movies where
  roomID : String
  channels : List String
  closed : Bool
  deriving DecidableEq, Repr

/-- Modelled from the spec: `movies.Close` closes every media channel of the collection. -/
def movies.Close (m : movies) : movies :=
  { m with channels := [], closed := true }

/-! ## `Room` (room.go) -/

/-- The struct `Room` of room.go: the embedded `model.Room`, the `version`, the done flag of
`initOnce`, the lazily created `hub` (`none` is the nil pointer) and the `movies`.  The field
`current` plays no part in the operations embedded here and is left out. -/
structure Room extends ModelRoom where
  version : Nat
  initOnce : Bool
  hub : Option Hub
  movies : movies
  deriving DecidableEq, Repr

/-- The room literal built by `InitRoom` and `LoadOrInitRoom` from a database row. -/
def Room.ofModel (room : ModelRoom) : Room :=
  { toModelRoom := room
    version := ChecksumIEEE room.HashedPassword
    initOnce := false
    hub := none
    movies := { roomID := room.ID, channels := [], closed := false } }

/-- `Room.lazyInitHub`: `initOnce.Do` runs the assignment of a new hub at most once. -/
def Room.lazyInitHub (r : Room) : Room :=
  if r.initOnce then r else { r with hub := some (newHub r.ID), initOnce := true }

/-- `Room.ClientNum`: zero for a nil hub, otherwise the hub's count. -/
def Room.ClientNum (r : Room) : Int :=
  match r.hub with
  | none => 0
  | some h => h.ClientNum

/-- `Room.close`: when `initOnce.Done()`, close the hub and then the movies; otherwise
nothing.  (`initOnce` is done only after `hub` has been assigned, so the hub is present in
the first branch.) -/
def Room.close (r : Room) : Room :=
  if r.initOnce then
    { r with hub := r.hub.map Hub.Close, movies := r.movies.Close }
  else
    r

/-- `Room.Version`: the atomically loaded version. -/
def Room.Version (r : Room) : Nat :=
  r.version

/-- `Room.CheckVersion`. -/
def Room.CheckVersion (r : Room) (version : Nat) : Bool :=
  r.version == version

/-- `Room.NeedPassword`: `len(r.HashedPassword) != 0`. -/
def Room.NeedPassword (r : Room) : Bool :=
  r.HashedPassword.length != 0

/-! ## Collaborators and the world -/

/-- Calls into package `db` made by the embedded operations. -/
inductive DbCall where
  | SetRoomHashedPassword (roomID : String) (hashedPassword : List Nat)
  | SetRoomStatus (roomID : String) (status : RoomStatus)
  deriving DecidableEq, Repr

/-- The collaborators of package `op` that are inputs of the embedding. -/
structure Env where
  /-- The method `model.Room.CheckPassword` of the embedded row. -/
  CheckPassword : ModelRoom → String → Bool
  /-- The outcome of `bcrypt.GenerateFromPassword(password, bcrypt.DefaultCost)`. -/
  GenerateFromPassword : String → Except Error (List Nat)
  /-- The outcome of a call into package `db` (`none` is the nil error). -/
  db : DbCall → Option Error
  /-- The function `GetUserName` of package `op`. -/
  GetUserName : String → String
  /-- The value `settings.RoomTTL.Get()`. -/
  RoomTTL : Nat

/-- Addresses of `Room` objects. -/
abbrev Ptr := Nat

/-- Modelled from the spec: an entry of the TTL cache `synccache.Entry` (the cache package is
not among the sources): the value and the expiration; `id` is the identity of the entry
object and `key` the key it is stored under. -/
structure Entry where
  id : Nat
  key : String
  value : Ptr
  expireAt : Nat
  deriving DecidableEq, Repr

/-- The explicit program state. -/
structure World where
  heap : Ptr → Room
  nextPtr : Ptr
  roomCache : List Entry
  nextEntry : Nat
  closeLog : List Ptr
  dbLog : List DbCall

/-- Store a room object at an address. -/
def World.store (w : World) (p : Ptr) (r : Room) : World :=
  { w with heap := fun q => if q = p then r else w.heap q }

/-- Record a call into package `db`. -/
def World.logDb (w : World) (c : DbCall) : World :=
  { w with dbLog := w.dbLog ++ [c] }

/-! ## The TTL cache (modelled from the spec, section 4.1) -/

/-- Modelled from the spec: an entry is expired when `expireAt < now` (the sweeper "removes
entries whose `expireAt < now`"). -/
def Entry.IsExpired (e : Entry) (now : Nat) : Bool :=
  decide (e.expireAt < now)

/-- The entry currently mapped under a key, expired or not. -/
def cacheFind (c : List Entry) (key : String) : Option Entry :=
  c.find? (fun e => e.key == key)

/-- Remove the mapping of a key. -/
def cacheDelete (c : List Entry) (key : String) : List Entry :=
  c.filter (fun e => e.key != key)

/-- Modelled from the spec: `Load(key)` "returns a non-expired entry or `ok=false`". -/
def SyncCache.Load (c : List Entry) (key : String) (now : Nat) : Option Entry :=
  match cacheFind c key with
  | some e => if e.IsExpired now then none else some e
  | none => none

/-- Modelled from the spec: `LoadOrStore(key, value, ttl)`: "if key is present and not
expired, returns existing entry with `loaded=true`; otherwise installs a fresh entry holding
`value` with `expireAt = now + ttl`, returns it with `loaded=false`".  The second argument is
the identity given to a fresh entry. -/
def SyncCache.LoadOrStore (c : List Entry) (fresh : Nat) (key : String) (value : Ptr)
    (ttl now : Nat) : List Entry × Entry × Bool :=
  match SyncCache.Load c key now with
  | some e => (c, e, true)
  | none =>
    let e : Entry := { id := fresh, key := key, value := value, expireAt := now + ttl }
    (e :: cacheDelete c key, e, false)

/-- Modelled from the spec: `LoadAndDelete(key)`: "atomic removal, returns the removed entry
if present". -/
def SyncCache.LoadAndDelete (c : List Entry) (key : String) : List Entry × Option Entry :=
  match cacheFind c key with
  | some e => (cacheDelete c key, some e)
  | none => (c, none)

/-- Modelled from the spec: `CompareAndDelete(key, entry)` "removes only if the current
mapping's entry is the same instance". -/
def SyncCache.CompareAndDelete (c : List Entry) (key : String) (e : Entry) : List Entry × Bool :=
  match cacheFind c key with
  | some cur => if cur.id = e.id then (cacheDelete c key, true) else (c, false)
  | none => (c, false)

/-- Modelled from the spec: `Entry.SetExpiration(t)` "slides expiration forward; never brings a
not-yet-expired entry below its current expiration".  The entry object is updated in place. -/
def SyncCache.SetExpiration (c : List Entry) (e : Entry) (t : Nat) : List Entry :=
  c.map (fun x => if x.id = e.id then { x with expireAt := max x.expireAt t } else x)

/-- Modelled from the spec: `Range(fn)` "iterates live entries"; the order of the list stands
for the unspecified iteration order. -/
def SyncCache.Range (c : List Entry) (now : Nat) : List Entry :=
  c.filter (fun e => !e.IsExpired now)

/-! ## Room operations that act on the world (room.go) -/

/-- Run `Room.close` on the room at address `p`, recording the invocation. -/
def World.closeRoom (w : World) (p : Ptr) : World :=
  { (w.store p (w.heap p).close) with closeLog := w.closeLog ++ [p] }

/-- `Room.SetPassword`.  The guard `r.CheckPassword(password) && r.NeedPassword()` fails
the call; a non-empty password is hashed and the version is stored inside that branch; then
`r.HashedPassword` is assigned and the row is written. -/
def Room.SetPassword (env : Env) (w : World) (r : Ptr) (password : String) :
    World × Option Error :=
  if env.CheckPassword (w.heap r).toModelRoom password && (w.heap r).NeedPassword then
    (w, some Error.passwordSame)
  else
    let hashing : Except Error (World × List Nat) :=
      if password != "" then
        match env.GenerateFromPassword password with
        | .error err => .error err
        | .ok hashedPassword =>
          .ok (w.store r { w.heap r with version := ChecksumIEEE hashedPassword }, hashedPassword)
      else
        .ok (w, [])
    match hashing with
    | .error err => (w, some err)
    | .ok (w1, hashedPassword) =>
      let w2 := w1.store r { w1.heap r with HashedPassword := hashedPassword }
      let call := DbCall.SetRoomHashedPassword (w2.heap r).ID hashedPassword
      (w2.logDb call, env.db call)

/-! ## The registry (rooms.go) -/

/-- `InitRoom`: the room object is allocated, then `LoadOrStore`; when an entry was loaded the
freshly allocated room is returned together with the error. -/
def InitRoom (env : Env) (w : World) (room : ModelRoom) (now : Nat) :
    World × Option Ptr × Option Error :=
  let r := w.nextPtr
  let w1 := { (w.store r (Room.ofModel room)) with nextPtr := w.nextPtr + 1 }
  match SyncCache.LoadOrStore w1.roomCache w1.nextEntry room.ID r env.RoomTTL now with
  | (c, i, loaded) =>
    if loaded then
      ({ w1 with roomCache := c }, some r, some Error.roomAlreadyInit)
    else
      ({ w1 with roomCache := c, nextEntry := w1.nextEntry + 1 }, some i.value, none)

/-- `LoadOrInitRoom`: the status switch, then `LoadOrStore` of a freshly allocated room; a
loaded entry gets its expiration refreshed. -/
def LoadOrInitRoom (env : Env) (w : World) (room : ModelRoom) (now : Nat) :
    World × Option Ptr × Option Error :=
  match room.Status with
  | RoomStatus.Banned => (w, none, some Error.roomBanned)
  | RoomStatus.Pending => (w, none, some Error.roomPending)
  | RoomStatus.Stopped => (w, none, some Error.roomStopped)
  | RoomStatus.Active =>
    let t := env.RoomTTL
    let r := w.nextPtr
    let w1 := { (w.store r (Room.ofModel room)) with nextPtr := w.nextPtr + 1 }
    match SyncCache.LoadOrStore w1.roomCache w1.nextEntry room.ID r t now with
    | (c, i, loaded) =>
      if loaded then
        ({ w1 with roomCache := SyncCache.SetExpiration c i (now + t) }, some i.value, none)
      else
        ({ w1 with roomCache := c, nextEntry := w1.nextEntry + 1 }, some i.value, none)

/-- `CloseRoom`: `LoadAndDelete`, and `close()` of the removed room. -/
def CloseRoom (w : World) (roomID : String) : World × Option Error :=
  match SyncCache.LoadAndDelete w.roomCache roomID with
  | (c, some r) => (({ w with roomCache := c } : World).closeRoom r.value, none)
  | (c, none) => ({ w with roomCache := c }, none)

/-- `CompareAndCloseRoom`: `Load`; a loaded entry holding another pointer returns at once;
otherwise `CompareAndDelete` and, when it removed the entry, `close()`. -/
def CompareAndCloseRoom (w : World) (room : Ptr) (now : Nat) : World × Option Error :=
  match SyncCache.Load w.roomCache (w.heap room).ID now with
  | some r =>
    if r.value ≠ room then
      (w, none)
    else
      match SyncCache.CompareAndDelete w.roomCache (w.heap room).ID r with
      | (c, true) => (({ w with roomCache := c } : World).closeRoom r.value, none)
      | (c, false) => ({ w with roomCache := c }, none)
  | none => (w, none)

/-- `LoadRoomByID`: cache only; a hit refreshes the expiration. -/
def LoadRoomByID (env : Env) (w : World) (id : String) (now : Nat) :
    World × Option Ptr × Option Error :=
  match SyncCache.Load w.roomCache id now with
  | some r2 =>
    ({ w with roomCache := SyncCache.SetExpiration w.roomCache r2 (now + env.RoomTTL) },
      some r2.value, none)
  | none => (w, none, some Error.roomNotFound)

/-- `Room.SetRoomStatus`: the row is written first; on success the field is assigned and the
statuses Banned, Stopped and Pending go on to `CompareAndCloseRoom(r)`. -/
def Room.SetRoomStatus (env : Env) (w : World) (r : Ptr) (status : RoomStatus) (now : Nat) :
    World × Option Error :=
  let call := DbCall.SetRoomStatus (w.heap r).ID status
  match env.db call with
  | some err => (w.logDb call, some err)
  | none =>
    let w1 := (w.logDb call).store r { w.heap r with Status := status }
    match status with
    | RoomStatus.Banned => CompareAndCloseRoom w1 r now
    | RoomStatus.Stopped => CompareAndCloseRoom w1 r now
    | RoomStatus.Pending => CompareAndCloseRoom w1 r now
    | RoomStatus.Active => (w1, none)

/-! ## The popularity heap (rooms.go) -/

/-- The struct `RoomHeapItem`. -/
structure RoomHeapItem where
  RoomId : String
  RoomName : String
  PeopleNum : Int
  NeedPassword : Bool
  Creator : String
  CreatedAt : Int
  deriving DecidableEq, Repr, Inhabited

/-- The slice type `RoomHeap`. -/
abbrev RoomHeap := List RoomHeapItem

/-- The element `h[i]`. -/
def RoomHeap.item (h : RoomHeap) (i : Nat) : RoomHeapItem :=
  h.getD i default

/-- `RoomHeap.Len`. -/
def RoomHeap.Len (h : RoomHeap) : Nat :=
  h.length

/-- `RoomHeap.Less`: `h[i].PeopleNum < h[j].PeopleNum`. -/
def RoomHeap.Less (h : RoomHeap) (i j : Nat) : Bool :=
  decide ((h.item i).PeopleNum < (h.item j).PeopleNum)

/-- `RoomHeap.Swap`: `h[i], h[j] = h[j], h[i]`. -/
def RoomHeap.Swap (h : RoomHeap) (i j : Nat) : RoomHeap :=
  (h.set i (h.item j)).set j (h.item i)

/-- `RoomHeap.Push`: append. -/
def RoomHeap.Push (h : RoomHeap) (x : RoomHeapItem) : RoomHeap :=
  h ++ [x]

/-- The loop of `up` in the heap package (the generic copy of Go's `container/heap`):
`i := (j - 1) / 2`; stop when `i == j || !h.Less(j, i)`; otherwise swap and continue from
`i`.  For `j = 0` Go's truncating division gives `i = 0`, as the truncated subtraction does
here.  The first argument bounds the number of iterations. -/
def heap.upLoop : Nat → RoomHeap → Nat → RoomHeap
  | 0, h, _ => h
  | fuel + 1, h, j =>
    let i := (j - 1) / 2
    if i = j || !h.Less j i then h else heap.upLoop fuel (h.Swap i j) i

/-- The function `up`: every iteration that continues strictly decreases `j`, so `j + 1`
iterations always reach the `break`. -/
def heap.up (h : RoomHeap) (j : Nat) : RoomHeap :=
  heap.upLoop (j + 1) h j

/-- `heap.Push`: `h.Push(x)` followed by `up(h, h.Len()-1)`. -/
def heap.Push (h : RoomHeap) (x : RoomHeapItem) : RoomHeap :=
  heap.up (h.Push x) ((h.Push x).Len - 1)

/-- The item pushed by `GetRoomHeapInCacheWithoutHidden` for a room. -/
def RoomHeapItem.ofRoom (env : Env) (v : Room) : RoomHeapItem :=
  { RoomId := v.ID
    RoomName := v.Name
    PeopleNum := v.ClientNum
    NeedPassword := v.NeedPassword
    Creator := env.GetUserName v.CreatorID
    CreatedAt := v.CreatedAt }

/-- `GetRoomHeapInCacheWithoutHidden`: range over the cache, pushing an item for every room
that is not hidden. -/
def GetRoomHeapInCacheWithoutHidden (env : Env) (w : World) (now : Nat) : RoomHeap :=
  (SyncCache.Range w.roomCache now).foldl
    (fun rooms value =>
      let v := w.heap value.value
      if !v.Hidden then heap.Push rooms (RoomHeapItem.ofRoom env v) else rooms)
    []

/-! ## Sample collaborators and states -/

/-- A deterministic stand-in for bcrypt: the bytes of `$2a$` followed by the password. -/
def sampleGenerate (password : String) : List Nat :=
  36 :: 50 :: 97 :: 36 :: password.toList.map Char.toNat

/-- Sample collaborators: the stand-in hash, a password check that accepts the passwords
whose stand-in hash is the stored one, a database that accepts every write. -/
def sampleEnv : Env :=
  { CheckPassword := fun room password => room.HashedPassword == sampleGenerate password
    GenerateFromPassword := fun password => Except.ok (sampleGenerate password)
    db := fun _ => none
    GetUserName := fun id => id
    RoomTTL := 100 }

/-- The 60 bytes of the bcrypt hash
`$2a$10$N9qo8uLOickgx2ZMRZoMyeIjZAgcfl7p92ldGxad68LJZdL17lhWy`. -/
def sampleHash : List Nat :=
  [36, 50, 97, 36, 49, 48, 36, 78, 57, 113, 111, 56, 117, 76, 79, 105, 99, 107, 103, 120,
   50, 90, 77, 82, 90, 111, 77, 121, 101, 73, 106, 90, 65, 103, 99, 102, 108, 55, 112, 57,
   50, 108, 100, 71, 120, 97, 100, 54, 56, 76, 74, 90, 100, 76, 49, 55, 108, 104, 87, 121]

/-- A database row of an active, visible room protected by `sampleHash`. -/
def sampleRow : ModelRoom :=
  { ID := "0b9c1f6e-8a43-4c58-9d0e-3f2a7b1c5d64"
    Name := "r1"
    CreatorID := "u1"
    CreatedAt := 0
    HashedPassword := sampleHash
    Status := RoomStatus.Active
    Hidden := false }

/-- The world before any room is loaded; every address holds the given room. -/
def World.init (r : Room) : World :=
  { heap := fun _ => r
    nextPtr := 0
    roomCache := []
    nextEntry := 0
    closeLog := []
    dbLog := [] }

/-- A room as `InitRoom` builds it from `sampleRow` (no hub yet), to which a live movie with an
open media channel has been added. -/
def sampleRoomWithMovie : Room :=
  { Room.ofModel sampleRow with
    movies := { roomID := sampleRow.ID, channels := ["live-1"], closed := false } }

/-- The sample row without password: the hash is the nil slice. -/
def sampleRowOpen : ModelRoom :=
  { sampleRow with HashedPassword := [] }

/-- The sample row with the stand-in hash of `hunter2` as its password hash. -/
def sampleRowHunter : ModelRoom :=
  { sampleRow with HashedPassword := sampleGenerate "hunter2" }

/-- The world after `LoadOrInitRoom(sampleRow)` at time `0` on the initial world: the room
object at address `0` is cached under its id until time `100`.  Every other address holds an
object with the same field values. -/
def sampleCachedWorld : World :=
  (LoadOrInitRoom sampleEnv (World.init (Room.ofModel sampleRow)) sampleRow 0).1

/-- The entry installed in `sampleCachedWorld`. -/
def sampleEntry : Entry :=
  { id := 0, key := sampleRow.ID, value := 0, expireAt := 100 }

/-- The sample row with status Banned. -/
def sampleRowBanned : ModelRoom :=
  { sampleRow with Status := RoomStatus.Banned }

/-- A room without password whose hub has the given registered users. -/
def sampleRoomWith (id : String) (users : List String) (hidden : Bool) : Room :=
  { Room.ofModel { sampleRow with ID := id, HashedPassword := [], Hidden := hidden } with
    initOnce := true
    hub := some { closed := false, users := users } }

/-- A world caching four rooms: `a` with three users, `b` hidden with two users, `c` with one
user, and `d` whose hub was never created. -/
def sampleHeapWorld : World :=
  { heap := fun p =>
      if p = 0 then sampleRoomWith "a" ["u1", "u2", "u3"] false
      else if p = 1 then sampleRoomWith "b" ["u1", "u2"] true
      else if p = 2 then sampleRoomWith "c" ["u4"] false
      else Room.ofModel { sampleRow with ID := "d", HashedPassword := [] }
    nextPtr := 4
    roomCache :=
      [{ id := 0, key := "a", value := 0, expireAt := 100 },
       { id := 1, key := "b", value := 1, expireAt := 100 },
       { id := 2, key := "c", value := 2, expireAt := 100 },
       { id := 3, key := "d", value := 3, expireAt := 100 }]
    nextEntry := 4
    closeLog := []
    dbLog := [] }

/-- The world in which `sampleRoomWithMovie` sits at address `0` and is cached under its id. -/
def sampleMovieWorld : World :=
  { sampleCachedWorld with heap := fun _ => sampleRoomWithMovie }

/-! ## Heap predicates -/

/-- The min-heap property of the slice layout: every element is at least its parent. -/
def IsMinHeap (h : RoomHeap) : Prop :=
  ∀ k, 0 < k → k < h.length → (h.item ((k - 1) / 2)).PeopleNum ≤ (h.item k).PeopleNum

/-- The heap property everywhere except between `j` and its parent, where the children of `j`
are already at least the parent of `j`. -/
def IsMinHeapExcept (h : RoomHeap) (j : Nat) : Prop :=
  (∀ k, 0 < k → k < h.length → k ≠ j →
    (h.item ((k - 1) / 2)).PeopleNum ≤ (h.item k).PeopleNum) ∧
  (∀ k, 0 < k → k < h.length → (k - 1) / 2 = j → 0 < j →
    (h.item ((j - 1) / 2)).PeopleNum ≤ (h.item k).PeopleNum)

/-! ## Basic facts -/

@[simp] theorem World.store_heap (w : World) (p q : Ptr) (r : Room) :
    (w.store p r).heap q = if q = p then r else w.heap q := rfl

@[simp] theorem World.store_roomCache (w : World) (p : Ptr) (r : Room) :
    (w.store p r).roomCache = w.roomCache := rfl

@[simp] theorem World.store_closeLog (w : World) (p : Ptr) (r : Room) :
    (w.store p r).closeLog = w.closeLog := rfl

@[simp] theorem World.store_dbLog (w : World) (p : Ptr) (r : Room) :
    (w.store p r).dbLog = w.dbLog := rfl

@[simp] theorem World.logDb_heap (w : World) (c : DbCall) : (w.logDb c).heap = w.heap := rfl

@[simp] theorem World.logDb_roomCache (w : World) (c : DbCall) :
    (w.logDb c).roomCache = w.roomCache := rfl

@[simp] theorem World.logDb_closeLog (w : World) (c : DbCall) :
    (w.logDb c).closeLog = w.closeLog := rfl

/-- The checksum of the empty slice is zero. -/
theorem ChecksumIEEE_nil : ChecksumIEEE [] = 0 := by
  simp [ChecksumIEEE]

/-- The checksum of the sample hash, computed byte by byte. -/
theorem ChecksumIEEE_sampleHash : ChecksumIEEE sampleHash = 4042126426 := by
  simp only [sampleHash, ChecksumIEEE, List.foldl_cons, List.foldl_nil, crc32Byte, crc32Bit,
    Nat.reduceXor, Nat.reduceMod, Nat.reduceDiv, Nat.reduceEqDiff, reduceIte]

/-! ## Passwords -/

/-- A successful `SetPassword` with a non-empty password leaves the version equal to the
checksum of the stored hash. -/
theorem SetPassword_version_of_nonempty (env : Env) (w : World) (r : Ptr) (password : String)
    (hp : password ≠ "") (hok : (Room.SetPassword env w r password).2 = none) :
    ((Room.SetPassword env w r password).1.heap r).Version =
      ChecksumIEEE ((Room.SetPassword env w r password).1.heap r).HashedPassword := by
  by_cases hguard :
      (env.CheckPassword (w.heap r).toModelRoom password && (w.heap r).NeedPassword) = true
  · simp [Room.SetPassword, hguard] at hok
  · cases hgen : env.GenerateFromPassword password <;>
      simp [Room.SetPassword, hguard, hp, hgen, Room.Version] at hok ⊢

/-- A successful `SetPassword("")` clears the hash and leaves the version as it was. -/
theorem SetPassword_empty_keeps_version (env : Env) (w : World) (r : Ptr)
    (hok : (Room.SetPassword env w r "").2 = none) :
    ((Room.SetPassword env w r "").1.heap r).HashedPassword = [] ∧
      ((Room.SetPassword env w r "").1.heap r).Version = (w.heap r).Version := by
  by_cases hguard :
      (env.CheckPassword (w.heap r).toModelRoom "" && (w.heap r).NeedPassword) = true
  · simp [Room.SetPassword, hguard] at hok
  · simp [Room.SetPassword, hguard, Room.Version]

/-- C1 (evaluation at the failing input): the room loaded from `sampleRow` carries the version
`crc32(sampleHash) = 4042126426`; `SetPassword("")` succeeds and clears `HashedPassword`, whose
checksum is now `0`, but `Version()` still returns `4042126426`, and
`CheckVersion(crc32(HashedPassword))` is false. -/
theorem SetPassword_empty_stale_version :
    (Room.SetPassword sampleEnv (World.init (Room.ofModel sampleRow)) 0 "").2 = none ∧
    ((Room.SetPassword sampleEnv (World.init (Room.ofModel sampleRow)) 0 "").1.heap 0).HashedPassword
      = [] ∧
    ((Room.SetPassword sampleEnv (World.init (Room.ofModel sampleRow)) 0 "").1.heap 0).Version
      = 4042126426 ∧
    ChecksumIEEE
      ((Room.SetPassword sampleEnv (World.init (Room.ofModel sampleRow)) 0 "").1.heap 0).HashedPassword
      = 0 ∧
    ((Room.SetPassword sampleEnv (World.init (Room.ofModel sampleRow)) 0 "").1.heap 0).CheckVersion
      (ChecksumIEEE
        ((Room.SetPassword sampleEnv (World.init (Room.ofModel sampleRow)) 0 "").1.heap 0).HashedPassword)
      = false := by
  have h : (sampleHash == sampleGenerate "") = false := by decide
  simp [Room.SetPassword, sampleEnv, World.init, Room.ofModel, sampleRow, h, Room.Version,
    Room.CheckVersion, ChecksumIEEE_sampleHash, ChecksumIEEE_nil]

/-- C7: when the room has a non-empty `HashedPassword` and `CheckPassword(p)` accepts `p`,
`SetPassword(p)` returns the error "password is the same" and the world is the one before the
call: `HashedPassword` and `version` are unchanged and no call into `db` is recorded. -/
theorem SetPassword_same_password (env : Env) (w : World) (r : Ptr) (password : String)
    (hneed : (w.heap r).HashedPassword ≠ [])
    (hmatch : env.CheckPassword (w.heap r).toModelRoom password = true) :
    (Room.SetPassword env w r password).2 = some Error.passwordSame ∧
    ((Room.SetPassword env w r password).1.heap r).HashedPassword = (w.heap r).HashedPassword ∧
    ((Room.SetPassword env w r password).1.heap r).Version = (w.heap r).Version ∧
    (Room.SetPassword env w r password).1.dbLog = w.dbLog := by
  have hguard : (env.CheckPassword (w.heap r).toModelRoom password &&
      (w.heap r).NeedPassword) = true := by
    simp [hmatch, Room.NeedPassword, hneed]
  simp [Room.SetPassword, hguard]

/-- C10: provided the hash primitive never returns an empty hash for a non-empty password:
(1) after a `SetPassword(p)` that returned no error, `NeedPassword()` holds exactly when `p` is
not the empty string.  (2) `SetPassword("")` does return no error whenever the guard does not
fire and the database accepts the write; it stores the nil hash, so `NeedPassword()` is false
whatever it was before.  (3) `SetPassword(p)` for a non-empty `p` does return no error whenever
the guard does not fire, bcrypt yields `hashed` and the database accepts the write; it stores
`hashed`, so `NeedPassword()` is true whatever it was before. -/
theorem SetPassword_NeedPassword_iff (env : Env) (w : World) (r : Ptr) (password : String)
    (hhash : ∀ q h, q ≠ "" → env.GenerateFromPassword q = Except.ok h → h ≠ []) :
    ((Room.SetPassword env w r password).2 = none →
      (((Room.SetPassword env w r password).1.heap r).NeedPassword = true ↔ password ≠ "")) ∧
    (password = "" →
      (env.CheckPassword (w.heap r).toModelRoom password && (w.heap r).NeedPassword) = false →
      env.db (DbCall.SetRoomHashedPassword (w.heap r).ID []) = none →
      (Room.SetPassword env w r password).2 = none ∧
      ((Room.SetPassword env w r password).1.heap r).HashedPassword = [] ∧
      ((Room.SetPassword env w r password).1.heap r).NeedPassword = false ∧
      (Room.SetPassword env w r password).1.dbLog
        = w.dbLog ++ [DbCall.SetRoomHashedPassword (w.heap r).ID []]) ∧
    (∀ hashed, password ≠ "" →
      (env.CheckPassword (w.heap r).toModelRoom password && (w.heap r).NeedPassword) = false →
      env.GenerateFromPassword password = Except.ok hashed →
      env.db (DbCall.SetRoomHashedPassword (w.heap r).ID hashed) = none →
      (Room.SetPassword env w r password).2 = none ∧
      ((Room.SetPassword env w r password).1.heap r).HashedPassword = hashed ∧
      ((Room.SetPassword env w r password).1.heap r).NeedPassword = true ∧
      (Room.SetPassword env w r password).1.dbLog
        = w.dbLog ++ [DbCall.SetRoomHashedPassword (w.heap r).ID hashed]) := by
  refine ⟨?_, ?_, ?_⟩
  · intro hok
    by_cases hguard :
        (env.CheckPassword (w.heap r).toModelRoom password && (w.heap r).NeedPassword) = true
    · simp [Room.SetPassword, hguard] at hok
    · unfold Room.SetPassword at hok ⊢
      rw [if_neg hguard] at hok ⊢
      by_cases hp : password = ""
      · simp [hp, Room.NeedPassword]
      · cases hgen : env.GenerateFromPassword password with
        | error err => simp [hp, hgen] at hok
        | ok hashed =>
          have hne := hhash password hashed hp hgen
          simp [hp, hgen, Room.NeedPassword, hne]
  · intro hp hguard hdb
    have hg : ¬ (env.CheckPassword (w.heap r).toModelRoom password &&
        (w.heap r).NeedPassword) = true := by simp [hguard]
    unfold Room.SetPassword
    rw [if_neg hg]
    simp [hp, Room.NeedPassword, hdb, World.logDb]
  · intro hashed hp hguard hgen hdb
    have hg : ¬ (env.CheckPassword (w.heap r).toModelRoom password &&
        (w.heap r).NeedPassword) = true := by simp [hguard]
    have hne := hhash password hashed hp hgen
    unfold Room.SetPassword
    rw [if_neg hg]
    simp [hp, hgen, Room.NeedPassword, hdb, hne, World.logDb]

/-- Instance for C7: the room holds the stand-in hash of `hunter2`, and `SetPassword("hunter2")`
is refused without touching the room or the database. -/
theorem SetPassword_same_password_witness :
    (Room.SetPassword sampleEnv (World.init (Room.ofModel sampleRowHunter)) 0 "hunter2").2
      = some Error.passwordSame ∧
    ((Room.SetPassword sampleEnv (World.init (Room.ofModel sampleRowHunter)) 0
      "hunter2").1.heap 0).HashedPassword
      = ((World.init (Room.ofModel sampleRowHunter)).heap 0).HashedPassword ∧
    ((Room.SetPassword sampleEnv (World.init (Room.ofModel sampleRowHunter)) 0
      "hunter2").1.heap 0).Version
      = ((World.init (Room.ofModel sampleRowHunter)).heap 0).Version ∧
    (Room.SetPassword sampleEnv (World.init (Room.ofModel sampleRowHunter)) 0 "hunter2").1.dbLog
      = (World.init (Room.ofModel sampleRowHunter)).dbLog :=
  SetPassword_same_password sampleEnv (World.init (Room.ofModel sampleRowHunter)) 0 "hunter2"
    (by decide) (by decide)

/-- Instance for C10, on the sample collaborators.  On the room without password
`SetPassword("hunter2")` succeeds, stores the stand-in hash, and `NeedPassword()` goes from
false to true; on the room protected by `sampleHash`, `SetPassword("")` succeeds, clears the
hash, and `NeedPassword()` goes from true to false. -/
theorem SetPassword_NeedPassword_iff_witness :
    (((World.init (Room.ofModel sampleRowOpen)).heap 0).NeedPassword = false ∧
      (Room.SetPassword sampleEnv (World.init (Room.ofModel sampleRowOpen)) 0 "hunter2").2
        = none ∧
      ((Room.SetPassword sampleEnv (World.init (Room.ofModel sampleRowOpen)) 0
        "hunter2").1.heap 0).HashedPassword = sampleGenerate "hunter2" ∧
      ((Room.SetPassword sampleEnv (World.init (Room.ofModel sampleRowOpen)) 0
        "hunter2").1.heap 0).NeedPassword = true) ∧
    (((World.init (Room.ofModel sampleRow)).heap 0).NeedPassword = true ∧
      (Room.SetPassword sampleEnv (World.init (Room.ofModel sampleRow)) 0 "").2 = none ∧
      ((Room.SetPassword sampleEnv (World.init (Room.ofModel sampleRow)) 0 "").1.heap
        0).HashedPassword = [] ∧
      ((Room.SetPassword sampleEnv (World.init (Room.ofModel sampleRow)) 0 "").1.heap
        0).NeedPassword = false) :=
  have hhash : ∀ q h, q ≠ "" → sampleEnv.GenerateFromPassword q = Except.ok h → h ≠ [] := by
    intro q h _ hg
    simp [sampleEnv, sampleGenerate] at hg
    rw [← hg]
    simp
  have h1 := (SetPassword_NeedPassword_iff sampleEnv (World.init (Room.ofModel sampleRowOpen)) 0
    "hunter2" hhash).2.2 (sampleGenerate "hunter2") (by decide) (by decide) rfl rfl
  have h2 := (SetPassword_NeedPassword_iff sampleEnv (World.init (Room.ofModel sampleRow)) 0
    "" hhash).2.1 rfl (by decide) rfl
  ⟨⟨by decide, h1.1, h1.2.1, h1.2.2.1⟩, ⟨by decide, h2.1, h2.2.1, h2.2.2.1⟩⟩

/-! ## close -/

/-- When the hub has been initialised, `close` closes the hub and the movies. -/
theorem close_of_initialized (r : Room) (h : r.initOnce = true) :
    r.close.movies = r.movies.Close ∧ r.close.hub = r.hub.map Hub.Close := by
  simp [Room.close, h]

/-- When the hub has never been initialised, `close` leaves the room as it is. -/
theorem close_of_not_initialized (r : Room) (h : r.initOnce = false) : r.close = r := by
  simp [Room.close, h]

/-- After `lazyInitHub` (as run by `RegClient` and `UnregisterClient`), `close` closes the
movies. -/
theorem close_lazyInitHub (r : Room) : r.lazyInitHub.close.movies = r.movies.Close := by
  unfold Room.lazyInitHub
  split <;> simp_all [Room.close]

/-- C2 (evaluation at the failing input): `sampleRoomWithMovie` has no hub (`initOnce` not done)
and one open media channel.  `close()` returns it unchanged: the movies are not closed and the
channel stays open, although `movies.Close()` would have closed it.  The same holds when the
room is closed through the registry: `CloseRoom` removes the entry and invokes `close()`, and
the room object still has its channel open. -/
theorem close_without_hub_skips_movies :
    sampleRoomWithMovie.initOnce = false ∧
    sampleRoomWithMovie.hub = none ∧
    sampleRoomWithMovie.close = sampleRoomWithMovie ∧
    sampleRoomWithMovie.close.movies.closed = false ∧
    sampleRoomWithMovie.close.movies.channels = ["live-1"] ∧
    sampleRoomWithMovie.movies.Close.closed = true ∧
    sampleRoomWithMovie.movies.Close.channels = [] ∧
    cacheFind (CloseRoom sampleMovieWorld sampleRow.ID).1.roomCache sampleRow.ID = none ∧
    (CloseRoom sampleMovieWorld sampleRow.ID).1.closeLog = [0] ∧
    ((CloseRoom sampleMovieWorld sampleRow.ID).1.heap 0).movies.closed = false ∧
    ((CloseRoom sampleMovieWorld sampleRow.ID).1.heap 0).movies.channels = ["live-1"] := by
  refine ⟨rfl, rfl, rfl, rfl, rfl, rfl, rfl, rfl, rfl, rfl, rfl⟩

/-! ## The cache -/

/-- A found entry is stored under the key looked up. -/
theorem cacheFind_key {c : List Entry} {key : String} {e : Entry}
    (h : cacheFind c key = some e) : e.key = key := by
  have := List.find?_some h
  simpa using this

/-- A deleted key is no longer mapped. -/
theorem cacheFind_cacheDelete (c : List Entry) (key : String) :
    cacheFind (cacheDelete c key) key = none := by
  simp [cacheFind, cacheDelete, List.find?_eq_none]

/-- Refreshing an expiration keeps the mapping of every key, up to the refreshed field. -/
theorem cacheFind_SetExpiration (c : List Entry) (e : Entry) (t : Nat) (key : String) :
    cacheFind (SyncCache.SetExpiration c e t) key =
      (cacheFind c key).map
        (fun x => if x.id = e.id then { x with expireAt := max x.expireAt t } else x) := by
  induction c with
  | nil => rfl
  | cons x xs ih =>
    simp only [cacheFind, SyncCache.SetExpiration] at ih ⊢
    rw [List.map_cons, List.find?_cons, List.find?_cons, ih]
    cases hx : x.key == key
    · have hx2 : ((if x.id = e.id then { x with expireAt := max x.expireAt t } else x).key
          == key) = false := by
        split <;> simpa using hx
      rw [hx2]
    · have hx2 : ((if x.id = e.id then { x with expireAt := max x.expireAt t } else x).key
          == key) = true := by
        split <;> simpa using hx
      rw [hx2]
      rfl

/-- A loaded entry is the mapped one and has not expired. -/
theorem Load_eq_some {c : List Entry} {key : String} {now : Nat} {e : Entry}
    (h : SyncCache.Load c key now = some e) :
    cacheFind c key = some e ∧ ¬ e.expireAt < now := by
  unfold SyncCache.Load at h
  cases hf : cacheFind c key with
  | none => simp [hf] at h
  | some x =>
    simp only [hf] at h
    by_cases hx : x.IsExpired now = true
    · simp [hx] at h
    · simp [hx] at h
      subst h
      exact ⟨rfl, by simpa [Entry.IsExpired] using hx⟩

/-- A mapped entry that has not expired is loaded. -/
theorem Load_of_find {c : List Entry} {key : String} {now : Nat} {e : Entry}
    (hf : cacheFind c key = some e) (hlive : now ≤ e.expireAt) :
    SyncCache.Load c key now = some e := by
  have : e.IsExpired now = false := by simp [Entry.IsExpired, hlive]
  simp [SyncCache.Load, hf, this]

/-- An unmapped key loads nothing. -/
theorem Load_of_find_none {c : List Entry} {key : String} (now : Nat)
    (hf : cacheFind c key = none) : SyncCache.Load c key now = none := by
  simp [SyncCache.Load, hf]

/-! ## CloseRoom -/

/-- C6: `CloseRoom(id); CloseRoom(id)` ends in the world a single `CloseRoom(id)` ends in.  The
first call returns nil, removes the mapping of `id` and invokes `close()` once on the removed
room, if there was one; the second call finds no entry, returns nil and leaves the world (the
registry and the trace of `close()` invocations included) as the first call left it. -/
theorem CloseRoom_CloseRoom (w : World) (roomID : String) :
    CloseRoom (CloseRoom w roomID).1 roomID = ((CloseRoom w roomID).1, none) ∧
    (CloseRoom w roomID).2 = none ∧
    (CloseRoom w roomID).1.roomCache = cacheDelete w.roomCache roomID ∧
    cacheFind (CloseRoom w roomID).1.roomCache roomID = none ∧
    (CloseRoom w roomID).1.closeLog =
      w.closeLog ++ (match cacheFind w.roomCache roomID with
        | some e => [e.value]
        | none => []) ∧
    (CloseRoom (CloseRoom w roomID).1 roomID).1.closeLog = (CloseRoom w roomID).1.closeLog := by
  have hfind : cacheFind (CloseRoom w roomID).1.roomCache roomID = none := by
    unfold CloseRoom SyncCache.LoadAndDelete
    cases hf : cacheFind w.roomCache roomID with
    | none => simpa using hf
    | some e => simpa [World.closeRoom] using cacheFind_cacheDelete w.roomCache roomID
  have hsecond : CloseRoom (CloseRoom w roomID).1 roomID = ((CloseRoom w roomID).1, none) := by
    generalize (CloseRoom w roomID).1 = w1 at hfind ⊢
    simp [CloseRoom, SyncCache.LoadAndDelete, hfind]
  refine ⟨hsecond, ?_, ?_, hfind, ?_, by rw [hsecond]⟩
  · unfold CloseRoom SyncCache.LoadAndDelete
    cases hf : cacheFind w.roomCache roomID <;> simp
  · unfold CloseRoom SyncCache.LoadAndDelete
    cases hf : cacheFind w.roomCache roomID with
    | none =>
      simp only [cacheFind] at hf
      simp only [cacheDelete, List.find?_eq_none] at hf ⊢
      symm
      rw [List.filter_eq_self]
      intro a ha
      simpa using hf a ha
    | some e => simp [World.closeRoom]
  · unfold CloseRoom SyncCache.LoadAndDelete
    cases hf : cacheFind w.roomCache roomID <;> simp [World.closeRoom]

/-! ## CompareAndCloseRoom -/

/-- When the id of `room` is unmapped or mapped to another pointer, nothing happens. -/
theorem CompareAndCloseRoom_of_other (w : World) (room : Ptr) (now : Nat)
    (h : ∀ e, cacheFind w.roomCache (w.heap room).ID = some e → e.value ≠ room) :
    CompareAndCloseRoom w room now = (w, none) := by
  unfold CompareAndCloseRoom
  cases hl : SyncCache.Load w.roomCache (w.heap room).ID now with
  | none => rfl
  | some r =>
    have hne := h r (Load_eq_some hl).1
    simp [hne]

/-- When the id of `room` is mapped to a live entry holding `room`, the entry is removed and
`room` is closed. -/
theorem CompareAndCloseRoom_of_same (w : World) (room : Ptr) (now : Nat) (e : Entry)
    (hl : SyncCache.Load w.roomCache (w.heap room).ID now = some e) (hv : e.value = room) :
    CompareAndCloseRoom w room now =
      (({ w with roomCache := cacheDelete w.roomCache (w.heap room).ID } : World).closeRoom room,
        none) := by
  have hf := (Load_eq_some hl).1
  simp [CompareAndCloseRoom, hl, hv, SyncCache.CompareAndDelete, hf]

/-- C4: `CompareAndCloseRoom(r)`.  (1) If `r.ID` is unmapped, or mapped to an entry holding a
pointer other than `r` (whatever the fields of the room behind it), the call returns nil and
the world is unchanged: the registry is as before and no `close()` is invoked.  (2) Hence a
call that changes the registry or invokes `close()` found `r.ID` mapped to `r` itself.  (3) If
`r.ID` is mapped to a live entry holding `r`, the mapping is removed, `close()` is invoked
once, on `r`, and nil is returned. -/
theorem CompareAndCloseRoom_exact (w : World) (room : Ptr) (now : Nat) :
    ((∀ e, cacheFind w.roomCache (w.heap room).ID = some e → e.value ≠ room) →
      CompareAndCloseRoom w room now = (w, none)) ∧
    (((CompareAndCloseRoom w room now).1.roomCache ≠ w.roomCache ∨
        (CompareAndCloseRoom w room now).1.closeLog ≠ w.closeLog) →
      ∃ e, cacheFind w.roomCache (w.heap room).ID = some e ∧ e.value = room) ∧
    (∀ e, SyncCache.Load w.roomCache (w.heap room).ID now = some e → e.value = room →
      (CompareAndCloseRoom w room now).1.roomCache = cacheDelete w.roomCache (w.heap room).ID ∧
      (CompareAndCloseRoom w room now).1.closeLog = w.closeLog ++ [room] ∧
      (CompareAndCloseRoom w room now).2 = none) := by
  refine ⟨CompareAndCloseRoom_of_other w room now, ?_, ?_⟩
  · intro hchg
    by_contra hno
    have hall : ∀ e, cacheFind w.roomCache (w.heap room).ID = some e → e.value ≠ room := by
      intro e he hv
      exact hno ⟨e, he, hv⟩
    rw [CompareAndCloseRoom_of_other w room now hall] at hchg
    simp at hchg
  · intro e hl hv
    rw [CompareAndCloseRoom_of_same w room now e hl hv]
    simp [World.closeRoom]

/-! ## SetRoomStatus -/

/-- C3: let `r` be the room that `Load(r.ID)` finds in the registry, and let the database write
succeed.  Then `SetRoomStatus(s)` returns nil and `r.Status == s`.  For `s` in Banned, Stopped,
Pending the registry no longer maps `r.ID`, every later `LoadRoomByID(r.ID)` returns a nil room
and the room-not-found error, and the trace of `close()` grew by exactly one invocation, on
`r`.  For `s == Active` the registry is unchanged and `close()` is not invoked. -/
theorem SetRoomStatus_evicts (env : Env) (w : World) (r : Ptr) (status : RoomStatus)
    (now : Nat) (e : Entry)
    (hcached : SyncCache.Load w.roomCache (w.heap r).ID now = some e) (hval : e.value = r)
    (hdb : env.db (DbCall.SetRoomStatus (w.heap r).ID status) = none) :
    (Room.SetRoomStatus env w r status now).2 = none ∧
    ((Room.SetRoomStatus env w r status now).1.heap r).Status = status ∧
    (status ≠ RoomStatus.Active →
      cacheFind (Room.SetRoomStatus env w r status now).1.roomCache (w.heap r).ID = none ∧
      (∀ later, (LoadRoomByID env (Room.SetRoomStatus env w r status now).1 (w.heap r).ID later).2
        = (none, some Error.roomNotFound)) ∧
      (Room.SetRoomStatus env w r status now).1.closeLog = w.closeLog ++ [r]) ∧
    (status = RoomStatus.Active →
      (Room.SetRoomStatus env w r status now).1.roomCache = w.roomCache ∧
      (Room.SetRoomStatus env w r status now).1.closeLog = w.closeLog) := by
  have hevict : ∀ w1 : World, w1.roomCache = w.roomCache → (w1.heap r).ID = (w.heap r).ID →
      (w1.heap r).Status = status → w1.closeLog = w.closeLog →
      (CompareAndCloseRoom w1 r now).2 = none ∧
      ((CompareAndCloseRoom w1 r now).1.heap r).Status = status ∧
      cacheFind (CompareAndCloseRoom w1 r now).1.roomCache (w.heap r).ID = none ∧
      (∀ later, (LoadRoomByID env (CompareAndCloseRoom w1 r now).1 (w.heap r).ID later).2
        = (none, some Error.roomNotFound)) ∧
      (CompareAndCloseRoom w1 r now).1.closeLog = w.closeLog ++ [r] := by
    intro w1 hc hid hst hlog
    have hl : SyncCache.Load w1.roomCache (w1.heap r).ID now = some e := by rw [hc, hid]; exact hcached
    rw [CompareAndCloseRoom_of_same w1 r now e hl hval]
    have hnone : cacheFind (cacheDelete w1.roomCache (w1.heap r).ID) (w.heap r).ID = none := by
      rw [hid]; exact cacheFind_cacheDelete _ _
    refine ⟨rfl, ?_, ?_, ?_, ?_⟩
    · simp only [World.closeRoom, World.store_heap, if_true]
      unfold Room.close
      split <;> simpa using hst
    · simpa [World.closeRoom] using hnone
    · intro later
      simp [LoadRoomByID, World.closeRoom, Load_of_find_none later hnone]
    · simp [World.closeRoom, hlog]
  cases status with
  | Active =>
    simp [Room.SetRoomStatus, hdb]
  | Banned =>
    have := hevict (((w.logDb (DbCall.SetRoomStatus (w.heap r).ID RoomStatus.Banned)).store r
      { w.heap r with Status := RoomStatus.Banned })) rfl (by simp) (by simp) rfl
    simpa [Room.SetRoomStatus, hdb] using this
  | Stopped =>
    have := hevict (((w.logDb (DbCall.SetRoomStatus (w.heap r).ID RoomStatus.Stopped)).store r
      { w.heap r with Status := RoomStatus.Stopped })) rfl (by simp) (by simp) rfl
    simpa [Room.SetRoomStatus, hdb] using this
  | Pending =>
    have := hevict (((w.logDb (DbCall.SetRoomStatus (w.heap r).ID RoomStatus.Pending)).store r
      { w.heap r with Status := RoomStatus.Pending })) rfl (by simp) (by simp) rfl
    simpa [Room.SetRoomStatus, hdb] using this

/-! ## LoadOrInitRoom -/

@[simp] theorem World.store_nextEntry (w : World) (p : Ptr) (r : Room) :
    (w.store p r).nextEntry = w.nextEntry := rfl

@[simp] theorem World.store_nextPtr (w : World) (p : Ptr) (r : Room) :
    (w.store p r).nextPtr = w.nextPtr := rfl

/-- C9: for a row with status Banned, Pending or Stopped, `LoadOrInitRoom` returns a nil room
with `ErrRoomBanned`, `ErrRoomPending`, `ErrRoomStopped` respectively, and the world (the
registry included, whatever it caches) is unchanged; for every other status it returns a
non-nil room and a nil error. -/
theorem LoadOrInitRoom_status (env : Env) (w : World) (room : ModelRoom) (now : Nat) :
    (room.Status = RoomStatus.Banned →
      LoadOrInitRoom env w room now = (w, none, some Error.roomBanned)) ∧
    (room.Status = RoomStatus.Pending →
      LoadOrInitRoom env w room now = (w, none, some Error.roomPending)) ∧
    (room.Status = RoomStatus.Stopped →
      LoadOrInitRoom env w room now = (w, none, some Error.roomStopped)) ∧
    ((room.Status ≠ RoomStatus.Banned ∧ room.Status ≠ RoomStatus.Pending ∧
        room.Status ≠ RoomStatus.Stopped) →
      (∃ p, (LoadOrInitRoom env w room now).2.1 = some p) ∧
      (LoadOrInitRoom env w room now).2.2 = none) := by
  refine ⟨?_, ?_, ?_, ?_⟩
  · intro h; simp [LoadOrInitRoom, h]
  · intro h; simp [LoadOrInitRoom, h]
  · intro h; simp [LoadOrInitRoom, h]
  · rintro ⟨h1, h2, h3⟩
    cases hs : room.Status with
    | Banned => exact absurd hs h1
    | Pending => exact absurd hs h2
    | Stopped => exact absurd hs h3
    | Active =>
      simp only [LoadOrInitRoom, hs]
      constructor
      · split <;> simp
      · split <;> rfl

/-- The result of `LoadOrInitRoom` for an active row whose id has no live entry: a fresh room
is allocated and installed under a fresh entry. -/
theorem LoadOrInitRoom_install (env : Env) (w : World) (room : ModelRoom) (now : Nat)
    (hs : room.Status = RoomStatus.Active)
    (hl : SyncCache.Load w.roomCache room.ID now = none) :
    (LoadOrInitRoom env w room now).2 = (some w.nextPtr, none) ∧
    (LoadOrInitRoom env w room now).1.roomCache =
      { id := w.nextEntry, key := room.ID, value := w.nextPtr, expireAt := now + env.RoomTTL }
        :: cacheDelete w.roomCache room.ID ∧
    (LoadOrInitRoom env w room now).1.nextEntry = w.nextEntry + 1 := by
  simp [LoadOrInitRoom, hs, SyncCache.LoadOrStore, hl]

/-- The result of `LoadOrInitRoom` for an active row whose id has a live entry: the cached
room is returned and only the expiration of its entry changes. -/
theorem LoadOrInitRoom_loaded (env : Env) (w : World) (room : ModelRoom) (now : Nat) (e : Entry)
    (hs : room.Status = RoomStatus.Active)
    (hl : SyncCache.Load w.roomCache room.ID now = some e) :
    (LoadOrInitRoom env w room now).2 = (some e.value, none) ∧
    (LoadOrInitRoom env w room now).1.roomCache =
      SyncCache.SetExpiration w.roomCache e (now + env.RoomTTL) ∧
    (LoadOrInitRoom env w room now).1.nextEntry = w.nextEntry := by
  simp [LoadOrInitRoom, hs, SyncCache.LoadOrStore, hl]

/-- After `LoadOrInitRoom` of an active row at time `now` the id is mapped to an entry that
holds the returned room and does not expire before `now + RoomTTL`. -/
theorem LoadOrInitRoom_mapped (env : Env) (w : World) (room : ModelRoom) (now : Nat)
    (hs : room.Status = RoomStatus.Active) :
    ∃ e, cacheFind (LoadOrInitRoom env w room now).1.roomCache room.ID = some e ∧
      (LoadOrInitRoom env w room now).2 = (some e.value, none) ∧
      now + env.RoomTTL ≤ e.expireAt := by
  cases hl : SyncCache.Load w.roomCache room.ID now with
  | none =>
    obtain ⟨h1, h2, _⟩ := LoadOrInitRoom_install env w room now hs hl
    refine ⟨(⟨w.nextEntry, room.ID, w.nextPtr, now + env.RoomTTL⟩ : Entry), ?_, h1, le_refl _⟩
    rw [h2]
    simp [cacheFind]
  | some e0 =>
    obtain ⟨h1, h2, _⟩ := LoadOrInitRoom_loaded env w room now e0 hs hl
    refine ⟨{ e0 with expireAt := max e0.expireAt (now + env.RoomTTL) }, ?_, h1, ?_⟩
    · rw [h2, cacheFind_SetExpiration, (Load_eq_some hl).1]
      simp
    · exact le_max_right _ _

/-- C5: for a row whose status is not Banned, Pending or Stopped, call `LoadOrInitRoom(row)` at
time `now1` and again at time `now2`, before the entry can expire (`now2 ≤ now1 + RoomTTL`).
Both calls return a nil error and the same room, the one held by the entry `e` mapped under
the id after the first call.  The second call installs nothing: the registry after it is the
registry after the first call with the expiration of `e` refreshed, no entry identity is
consumed, and the id is still mapped to the same entry object holding the same room.  When the
id had no live entry before, the first call installed `e` as a fresh entry holding a freshly
allocated room. -/
theorem LoadOrInitRoom_twice (env : Env) (w : World) (room : ModelRoom) (now1 now2 : Nat)
    (hs : room.Status ≠ RoomStatus.Banned ∧ room.Status ≠ RoomStatus.Pending ∧
      room.Status ≠ RoomStatus.Stopped)
    (hlive : now2 ≤ now1 + env.RoomTTL) :
    ∃ e, cacheFind (LoadOrInitRoom env w room now1).1.roomCache room.ID = some e ∧
      (LoadOrInitRoom env w room now1).2 = (some e.value, none) ∧
      (LoadOrInitRoom env (LoadOrInitRoom env w room now1).1 room now2).2
        = (some e.value, none) ∧
      (LoadOrInitRoom env (LoadOrInitRoom env w room now1).1 room now2).1.roomCache
        = SyncCache.SetExpiration (LoadOrInitRoom env w room now1).1.roomCache e
            (now2 + env.RoomTTL) ∧
      (LoadOrInitRoom env (LoadOrInitRoom env w room now1).1 room now2).1.nextEntry
        = (LoadOrInitRoom env w room now1).1.nextEntry ∧
      (cacheFind (LoadOrInitRoom env (LoadOrInitRoom env w room now1).1 room now2).1.roomCache
          room.ID).map (fun x => (x.id, x.value)) = some (e.id, e.value) ∧
      (SyncCache.Load w.roomCache room.ID now1 = none →
        e.id = w.nextEntry ∧ e.value = w.nextPtr ∧
        (LoadOrInitRoom env w room now1).1.nextEntry = w.nextEntry + 1) := by
  have hact : room.Status = RoomStatus.Active := by
    obtain ⟨h1, h2, h3⟩ := hs
    cases hst : room.Status with
    | Banned => exact absurd hst h1
    | Pending => exact absurd hst h2
    | Stopped => exact absurd hst h3
    | Active => rfl
  obtain ⟨e, hfind, hret, hexp⟩ := LoadOrInitRoom_mapped env w room now1 hact
  have hload : SyncCache.Load (LoadOrInitRoom env w room now1).1.roomCache room.ID now2
      = some e := Load_of_find hfind (le_trans hlive hexp)
  obtain ⟨h1, h2, h3⟩ :=
    LoadOrInitRoom_loaded env (LoadOrInitRoom env w room now1).1 room now2 e hact hload
  refine ⟨e, hfind, hret, h1, h2, h3, ?_, ?_⟩
  · rw [h2, cacheFind_SetExpiration, hfind]
    simp
  · intro hnone
    obtain ⟨i1, i2, i3⟩ := LoadOrInitRoom_install env w room now1 hact hnone
    rw [i2] at hfind
    simp [cacheFind] at hfind
    subst hfind
    exact ⟨rfl, rfl, i3⟩

/-! ## The popularity heap -/

/-- Swapping keeps the length. -/
theorem RoomHeap.length_Swap (h : RoomHeap) (i j : Nat) : (h.Swap i j).length = h.length := by
  simp [RoomHeap.Swap]

/-- The elements of a slice after `Swap`. -/
theorem RoomHeap.item_Swap (h : RoomHeap) (i j k : Nat) (hi : i < h.length)
    (hj : j < h.length) :
    (h.Swap i j).item k = if k = j then h.item i else if k = i then h.item j else h.item k := by
  unfold RoomHeap.Swap RoomHeap.item
  simp only [List.getD_eq_getElem?_getD, List.getElem?_set, List.length_set]
  by_cases hkj : k = j
  · subst hkj
    simp [hj]
  · by_cases hki : k = i
    · subst hki
      simp [hi, Ne.symm hkj, hkj]
    · simp [hkj, hki, Ne.symm hkj, Ne.symm hki]

/-- Overwriting position `j` with `a` and keeping the old element is a rearrangement. -/
theorem perm_cons_set (t : List RoomHeapItem) (j : Nat) (a : RoomHeapItem) (hj : j < t.length) :
    List.Perm (t.getD j default :: t.set j a) (a :: t) := by
  induction t generalizing j with
  | nil => simp at hj
  | cons b t ih =>
    cases j with
    | zero => exact List.Perm.swap _ _ _
    | succ j =>
      have hj2 : j < t.length := by simpa using hj
      have h1 := ih j hj2
      simp only [List.getD_cons_succ, List.set_cons_succ]
      exact (List.Perm.swap _ _ _).trans ((h1.cons b).trans (List.Perm.swap _ _ _))

/-- Swapping rearranges the slice. -/
theorem RoomHeap.perm_Swap (h : RoomHeap) (i j : Nat) (hij : i < j) (hj : j < h.length) :
    List.Perm (h.Swap i j) h := by
  induction h generalizing i j with
  | nil => simp at hj
  | cons x t ih =>
    cases j with
    | zero => omega
    | succ j =>
      have hj2 : j < t.length := by simpa using hj
      cases i with
      | zero =>
        simp only [RoomHeap.Swap, RoomHeap.item, List.getD_cons_succ, List.getD_cons_zero,
          List.set_cons_zero, List.set_cons_succ]
        exact perm_cons_set t j x hj2
      | succ i =>
        have h1 := ih i j (by omega) hj2
        simp only [RoomHeap.Swap, RoomHeap.item, List.getD_cons_succ, List.set_cons_succ] at h1 ⊢
        exact h1.cons x

/-- The loop of `up`, started at `j` with more than `j` iterations allowed, restores the heap
property of a slice that has it everywhere except at `j`, and rearranges the slice. -/
theorem heap.upLoop_spec (fuel : Nat) : ∀ (h : RoomHeap) (j : Nat), j < fuel → j < h.length →
    IsMinHeapExcept h j →
    IsMinHeap (heap.upLoop fuel h j) ∧ List.Perm (heap.upLoop fuel h j) h := by
  induction fuel with
  | zero => intro h j hf; omega
  | succ fuel ih =>
    intro h j hf hj hex
    obtain ⟨hex1, hex2⟩ := hex
    unfold heap.upLoop
    simp only
    by_cases hstop : ((j - 1) / 2 = j || !h.Less j ((j - 1) / 2)) = true
    · rw [if_pos hstop]
      refine ⟨?_, List.Perm.refl _⟩
      intro k hk hkl
      by_cases hkj : k = j
      · subst hkj
        have hne : (k - 1) / 2 ≠ k := by omega
        simp [hne, RoomHeap.Less] at hstop
        exact hstop
      · exact hex1 k hk hkl hkj
    · rw [if_neg hstop]
      have hne : (j - 1) / 2 ≠ j := by
        intro heq
        simp [heq] at hstop
      have hj0 : 0 < j := by omega
      have hi : (j - 1) / 2 < j := by omega
      have hlt : (h.item j).PeopleNum < (h.item ((j - 1) / 2)).PeopleNum := by
        simpa [hne, RoomHeap.Less] using hstop
      have hil : (j - 1) / 2 < h.length := by omega
      have hlen := RoomHeap.length_Swap h ((j - 1) / 2) j
      have hitem := fun k => RoomHeap.item_Swap h ((j - 1) / 2) j k hil hj
      have hrec := ih (h.Swap ((j - 1) / 2) j) ((j - 1) / 2) (by omega) (by omega) ?_
      · exact ⟨hrec.1, hrec.2.trans (RoomHeap.perm_Swap h _ j hi hj)⟩
      · constructor
        · intro k hk hkl hki
          rw [hlen] at hkl
          rw [hitem k, hitem ((k - 1) / 2)]
          by_cases hkj : k = j
          · subst hkj
            simp [hne]
            exact le_of_lt hlt
          · have hpk : (k - 1) / 2 < k := by omega
            rw [if_neg hkj, if_neg hki]
            by_cases hpj : (k - 1) / 2 = j
            · rw [if_pos hpj]
              have := hex2 k hk hkl hpj hj0
              exact this
            · rw [if_neg hpj]
              by_cases hpi : (k - 1) / 2 = (j - 1) / 2
              · rw [if_pos hpi]
                have := hex1 k hk hkl hkj
                rw [hpi] at this
                exact le_trans (le_of_lt hlt) this
              · rw [if_neg hpi]
                exact hex1 k hk hkl hkj
        · intro k hk hkl hpk hi0
          rw [hlen] at hkl
          rw [hitem k, hitem (((j - 1) / 2 - 1) / 2)]
          have hgp : ((j - 1) / 2 - 1) / 2 < (j - 1) / 2 := by omega
          have hgpj : ((j - 1) / 2 - 1) / 2 ≠ j := by omega
          have hgpi : ((j - 1) / 2 - 1) / 2 ≠ (j - 1) / 2 := by omega
          rw [if_neg hgpj, if_neg hgpi]
          have hpar := hex1 ((j - 1) / 2) hi0 hil hne
          by_cases hkj : k = j
          · rw [if_pos hkj]
            exact hpar
          · have hki : k ≠ (j - 1) / 2 := by omega
            rw [if_neg hkj, if_neg hki]
            have := hex1 k hk hkl hkj
            rw [hpk] at this
            exact le_trans hpar this

/-- `heap.Push` keeps the heap property and adds the pushed item. -/
theorem heap.Push_spec (h : RoomHeap) (x : RoomHeapItem) (hh : IsMinHeap h) :
    IsMinHeap (heap.Push h x) ∧ List.Perm (heap.Push h x) (h ++ [x]) := by
  unfold heap.Push heap.up
  have hlen : (h.Push x).Len - 1 = h.length := by simp [RoomHeap.Push, RoomHeap.Len]
  rw [hlen]
  have hitem : ∀ k, k < h.length → (h.Push x).item k = h.item k := by
    intro k hk
    simp [RoomHeap.Push, RoomHeap.item, List.getElem?_append_left hk]
  apply heap.upLoop_spec (h.length + 1) (h.Push x) h.length (by omega)
    (by simp [RoomHeap.Push])
  constructor
  · intro k hk hkl hkne
    have hkl2 : k < h.length := by
      simp [RoomHeap.Push] at hkl
      omega
    rw [hitem k hkl2, hitem ((k - 1) / 2) (by omega)]
    exact hh k hk hkl2
  · intro k hk hkl hpk _
    simp [RoomHeap.Push] at hkl
    omega

/-- The root of a min-heap is a minimum. -/
theorem IsMinHeap.root_le {h : RoomHeap} (hh : IsMinHeap h) :
    ∀ i, i < h.length → (h.item 0).PeopleNum ≤ (h.item i).PeopleNum := by
  intro i
  induction i using Nat.strong_induction_on with
  | _ i ih =>
    intro hi
    by_cases h0 : i = 0
    · subst h0
      exact le_refl _
    · have hp : (i - 1) / 2 < i := by omega
      exact le_trans (ih ((i - 1) / 2) hp (by omega)) (hh i (by omega) hi)

/-- The loop body of `GetRoomHeapInCacheWithoutHidden`, folded over the ranged entries. -/
theorem heap_foldl_spec (env : Env) (w : World) (l : List Entry) :
    ∀ acc : RoomHeap, IsMinHeap acc →
      IsMinHeap (l.foldl
        (fun rooms value =>
          let v := w.heap value.value
          if !v.Hidden then heap.Push rooms (RoomHeapItem.ofRoom env v) else rooms) acc) ∧
      List.Perm (l.foldl
        (fun rooms value =>
          let v := w.heap value.value
          if !v.Hidden then heap.Push rooms (RoomHeapItem.ofRoom env v) else rooms) acc)
        (acc ++ (l.filter (fun e => !(w.heap e.value).Hidden)).map
          (fun e => RoomHeapItem.ofRoom env (w.heap e.value))) := by
  induction l with
  | nil =>
    intro acc hacc
    simpa using hacc
  | cons e l ih =>
    intro acc hacc
    rw [List.foldl_cons]
    by_cases hh : (w.heap e.value).Hidden = true
    · simp only [hh, Bool.not_true, Bool.false_eq_true, if_false]
      have := ih acc hacc
      simpa [List.filter_cons, hh] using this
    · have hh2 : (w.heap e.value).Hidden = false := by simpa using hh
      simp only [hh2, Bool.not_false, if_true]
      obtain ⟨hp1, hp2⟩ := heap.Push_spec acc (RoomHeapItem.ofRoom env (w.heap e.value)) hacc
      obtain ⟨h1, h2⟩ := ih _ hp1
      refine ⟨h1, h2.trans ?_⟩
      simp only [List.filter_cons, hh2, Bool.not_false, if_true, List.map_cons]
      have := hp2.append_right ((l.filter (fun e => !(w.heap e.value).Hidden)).map
          (fun e => RoomHeapItem.ofRoom env (w.heap e.value)))
      simpa using this

/-- C8: the `RoomHeap` returned by `GetRoomHeapInCacheWithoutHidden` is a binary min-heap keyed
by `PeopleNum`: for every index `i > 0`, `h[(i-1)/2].PeopleNum ≤ h[i].PeopleNum`; so `h[0]` has
the minimum; and the heap is a permutation of the items of the live cached rooms whose
`Settings.Hidden` is false, one item each, hidden rooms contributing none. -/
theorem GetRoomHeapInCacheWithoutHidden_minHeap (env : Env) (w : World) (now : Nat) :
    (∀ i, 0 < i → i < (GetRoomHeapInCacheWithoutHidden env w now).length →
      ((GetRoomHeapInCacheWithoutHidden env w now).item ((i - 1) / 2)).PeopleNum
        ≤ ((GetRoomHeapInCacheWithoutHidden env w now).item i).PeopleNum) ∧
    (∀ i, i < (GetRoomHeapInCacheWithoutHidden env w now).length →
      ((GetRoomHeapInCacheWithoutHidden env w now).item 0).PeopleNum
        ≤ ((GetRoomHeapInCacheWithoutHidden env w now).item i).PeopleNum) ∧
    List.Perm (GetRoomHeapInCacheWithoutHidden env w now)
      (((SyncCache.Range w.roomCache now).filter (fun e => !(w.heap e.value).Hidden)).map
        (fun e => RoomHeapItem.ofRoom env (w.heap e.value))) := by
  have hnil : IsMinHeap ([] : RoomHeap) := by
    intro k _ hk
    simp at hk
  obtain ⟨h1, h2⟩ := heap_foldl_spec env w (SyncCache.Range w.roomCache now) [] hnil
  refine ⟨h1, IsMinHeap.root_le h1, ?_⟩
  simpa [GetRoomHeapInCacheWithoutHidden] using h2

/-! ## Instances on the sample states -/

/-- Instance for C4: in `sampleCachedWorld` the id is mapped to the
room at address `0`; the room at address `1` has the same field values, and
`CompareAndCloseRoom` called with it changes nothing. -/
theorem CompareAndCloseRoom_exact_witness :
    sampleCachedWorld.heap 1 = sampleCachedWorld.heap 0 ∧
    cacheFind sampleCachedWorld.roomCache (sampleCachedWorld.heap 1).ID = some sampleEntry ∧
    CompareAndCloseRoom sampleCachedWorld 1 5 = (sampleCachedWorld, none) :=
  ⟨rfl, rfl, (CompareAndCloseRoom_exact sampleCachedWorld 1 5).1 (by
    intro e he
    have hfind : cacheFind sampleCachedWorld.roomCache (sampleCachedWorld.heap 1).ID
        = some sampleEntry := rfl
    rw [hfind] at he
    cases he
    decide)⟩

/-- Instance for C3: banning the cached sample room evicts it, a later
`LoadRoomByID` fails with "room not found", and `close` ran once, on that room. -/
theorem SetRoomStatus_evicts_witness :
    (Room.SetRoomStatus sampleEnv sampleCachedWorld 0 RoomStatus.Banned 5).2 = none ∧
    ((Room.SetRoomStatus sampleEnv sampleCachedWorld 0 RoomStatus.Banned 5).1.heap 0).Status
      = RoomStatus.Banned ∧
    (LoadRoomByID sampleEnv (Room.SetRoomStatus sampleEnv sampleCachedWorld 0
      RoomStatus.Banned 5).1 sampleRow.ID 6).2 = (none, some Error.roomNotFound) ∧
    (Room.SetRoomStatus sampleEnv sampleCachedWorld 0 RoomStatus.Banned 5).1.closeLog = [0] :=
  have h := SetRoomStatus_evicts sampleEnv sampleCachedWorld 0 RoomStatus.Banned 5 sampleEntry
    rfl rfl rfl
  ⟨h.1, h.2.1, (h.2.2.1 (by decide)).2.1 6, (h.2.2.1 (by decide)).2.2⟩

/-- Instance for C5 on the initial world: both calls return the room at
address `0`, installed by the first call under entry `0`. -/
theorem LoadOrInitRoom_twice_witness :
    ∃ e, cacheFind (LoadOrInitRoom sampleEnv (World.init (Room.ofModel sampleRow)) sampleRow
        0).1.roomCache sampleRow.ID = some e ∧
      (LoadOrInitRoom sampleEnv (World.init (Room.ofModel sampleRow)) sampleRow 0).2
        = (some e.value, none) ∧
      (LoadOrInitRoom sampleEnv (LoadOrInitRoom sampleEnv (World.init (Room.ofModel sampleRow))
        sampleRow 0).1 sampleRow 7).2 = (some e.value, none) ∧
      e.id = 0 ∧ e.value = 0 := by
  obtain ⟨e, h1, h2, h3, _, _, _, h7⟩ :=
    LoadOrInitRoom_twice sampleEnv (World.init (Room.ofModel sampleRow)) sampleRow 0 7
      (by decide) (by decide)
  exact ⟨e, h1, h2, h3, (h7 rfl).1, (h7 rfl).2.1⟩

/-- Instance for C9: a Banned row is refused although a room with its id
is cached, and the world stays as it was. -/
theorem LoadOrInitRoom_status_witness :
    cacheFind sampleCachedWorld.roomCache sampleRowBanned.ID = some sampleEntry ∧
    LoadOrInitRoom sampleEnv sampleCachedWorld sampleRowBanned 5
      = (sampleCachedWorld, none, some Error.roomBanned) :=
  ⟨rfl, (LoadOrInitRoom_status sampleEnv sampleCachedWorld sampleRowBanned 5).1 rfl⟩

/-- Instance for C6: closing the cached sample room twice. -/
theorem CloseRoom_CloseRoom_witness :
    (CloseRoom sampleCachedWorld sampleRow.ID).1.closeLog = [0] ∧
    (CloseRoom (CloseRoom sampleCachedWorld sampleRow.ID).1 sampleRow.ID).1.closeLog = [0] ∧
    CloseRoom (CloseRoom sampleCachedWorld sampleRow.ID).1 sampleRow.ID
      = ((CloseRoom sampleCachedWorld sampleRow.ID).1, none) :=
  have h := CloseRoom_CloseRoom sampleCachedWorld sampleRow.ID
  ⟨h.2.2.2.2.1, h.2.2.2.2.2.trans h.2.2.2.2.1, h.1⟩

/-- Instance for C8 on `sampleHeapWorld`: the heap
holds the three visible rooms, the room without clients at the root. -/
theorem GetRoomHeapInCacheWithoutHidden_minHeap_witness :
    (GetRoomHeapInCacheWithoutHidden sampleEnv sampleHeapWorld 50).map
        (fun x => (x.RoomId, x.PeopleNum)) = [("d", 0), ("a", 3), ("c", 1)] ∧
    ((GetRoomHeapInCacheWithoutHidden sampleEnv sampleHeapWorld 50).item ((2 - 1) / 2)).PeopleNum
      ≤ ((GetRoomHeapInCacheWithoutHidden sampleEnv sampleHeapWorld 50).item 2).PeopleNum :=
  ⟨rfl, (GetRoomHeapInCacheWithoutHidden_minHeap sampleEnv sampleHeapWorld 50).1 2
    (by decide) (by decide)⟩

end SyncTV
